import Mathlib

/-!
Shallow embedding of the MeshLab plugin discovery / capability registration
subsystem (src/common/plugin_manager.cpp).

A loaded dynamic module is modelled as a Plugin value: each capability
interface cast (qobject_cast) is modelled by an Option field being some.
Pointer identity of a loaded root object is modelled by the index of its
candidate file in the enumeration order: registries store (index, Plugin)
pairs, mirroring the C++ registries that store interface pointers into the
same object.

QMap is modelled as an association list with unique keys: insert replaces
the value of an existing key in place, otherwise appends at the end; lookup
returns the value at the key.
-/

/-- An action exposed by a filter plugin (QAction plus the per-action
metadata queried through FilterPluginInterface). -/
structure FilterAction where
  text : String
  filterClass : Nat
  requirements : Int
  preConditions : Int
  postCondition : Int
  arity : Nat
  data : Option String
deriving DecidableEq

/-- Modelled from the spec: the generic/unset classification tag
(FilterPluginInterface::Generic, an enum value defined in a header that is
not among the given sources). Only equality with it is ever tested. -/
def GenericClass : Nat := 0

/-- Modelled from the spec: the unknown sentinel for requirement,
precondition and postcondition masks (MeshModel::MM_UNKNOWN, defined in a
header that is not among the given sources). Only equality with it is ever
tested. -/
def MM_UNKNOWN : Int := -1

/-- Modelled from the spec: the unknown arity tag
(FilterPluginInterface::UNKNOWN_ARITY, defined in a header that is not
among the given sources). Only equality with it is ever tested. -/
def UNKNOWN_ARITY : Nat := 4

/-- An action exposed by a decorate plugin: the QAction text and the
decoration name returned by DecoratePluginInterface::decorationName. -/
structure DecorateAction where
  text : String
  decorationName : String
deriving DecidableEq

/-- A file format: a description and its extensions. -/
structure FileFormat where
  description : String
  extensions : List String
deriving DecidableEq

/-- The root object obtained from a candidate module. Each Option field is
some exactly when the corresponding qobject_cast succeeds; the payload is
the data the subsystem reads through that interface. -/
structure Plugin where
  pluginName : String
  filter : Option (List FilterAction)
  ioMesh : Option (List FileFormat × List FileFormat)
  ioRaster : Option (List FileFormat)
  decorate : Option (List DecorateAction)
  render : Bool
  editFactory : Option (List String)
deriving DecidableEq

/-- importFormats() of a mesh-io plugin (first component of the ioMesh
payload). -/
def Plugin.importFormats (p : Plugin) : List FileFormat :=
  (p.ioMesh.getD ([], [])).1

/-- exportFormats() of a mesh-io plugin (second component of the ioMesh
payload). -/
def Plugin.exportFormats (p : Plugin) : List FileFormat :=
  (p.ioMesh.getD ([], [])).2

/-- A candidate file found in the plugins directory: its file name, whether
QPluginLoader yields a root object, the loader error text when it does not,
and the root object when it does. -/
structure Candidate where
  fileName : String
  loads : Bool
  errorString : String
  plugin : Plugin
deriving DecidableEq

/-- A registry entry: the candidate index (pointer identity) together with
the module root object it points into. -/
abbrev PluginRef := Nat × Plugin

/-- QMap lookup: the value stored at the key, if present. -/
def qlookup {α : Type} (m : List (String × α)) (k : String) : Option α :=
  match m with
  | [] => none
  | (k2, v) :: t => if k2 = k then some v else qlookup t k

/-- QMap contains. -/
def qcontains {α : Type} (m : List (String × α)) (k : String) : Bool :=
  (qlookup m k).isSome

/-- QMap insert: replaces the value at an existing key, otherwise appends a
new entry. -/
def qinsert {α : Type} (m : List (String × α)) (k : String) (v : α) :
    List (String × α) :=
  match m with
  | [] => [(k, v)]
  | (k2, v2) :: t => if k2 = k then (k2, v) :: t else (k2, v2) :: qinsert t k v

/-- Number of entries of the map carrying the given key. -/
def keyCount {α : Type} (m : List (String × α)) (k : String) : Nat :=
  (m.filter (fun e => e.1 == k)).length

/-- The whole registry state of the plugin manager. -/
structure PluginManager where
  pluginsLoaded : List String
  filterPlugins : List PluginRef
  actionFilterMap : List (String × (Nat × FilterAction))
  ioMeshPlugins : List PluginRef
  ioRasterPlugins : List PluginRef
  decoratePlugins : List PluginRef
  renderPlugins : List PluginRef
  decoratorActionList : List (Nat × DecorateAction)
  editPlugins : List PluginRef
  editActionList : List (Nat × String)
  ownerPlug : List (String × PluginRef)
  diagnostics : List String
  allKnowInputMeshFormats : List (String × PluginRef)
  inpMeshFilters : List String
  allKnowOutputFormats : List (String × PluginRef)
  outFilters : List String
  allKnownInputRasterFormats : List (String × PluginRef)
  inpRasterFilters : List String

/-- The freshly constructed manager: every registry empty. -/
def PluginManager.empty : PluginManager :=
  ⟨[], [], [], [], [], [], [], [], [], [], [], [], [], [], [], [], [], []⟩

/-- The five per-action validator checks of loadPlugins: classification tag
not Generic, requirements not MM_UNKNOWN, preconditions not MM_UNKNOWN,
postcondition not MM_UNKNOWN, arity not UNKNOWN_ARITY. -/
def validFilterAction (a : FilterAction) : Bool :=
  !(a.filterClass == GenericClass) && !(a.requirements == MM_UNKNOWN) &&
  !(a.preConditions == MM_UNKNOWN) && !(a.postCondition == MM_UNKNOWN) &&
  !(a.arity == UNKNOWN_ARITY)

/-- The qDebug diagnostics the validator emits for one action: one message
per violated check, in the order the checks are written. -/
def filterCheckDiags (fileName : String) (a : FilterAction) : List String :=
  (if a.filterClass == GenericClass then
    ["Missing class for " ++ fileName ++ " " ++ a.text] else []) ++
  (if a.requirements == MM_UNKNOWN then
    ["Missing requirements for " ++ fileName ++ " " ++ a.text] else []) ++
  (if a.preConditions == MM_UNKNOWN then
    ["Missing preconditions for " ++ fileName ++ " " ++ a.text] else []) ++
  (if a.postCondition == MM_UNKNOWN then
    ["Missing postcondition for " ++ fileName ++ " " ++ a.text] else []) ++
  (if a.arity == UNKNOWN_ARITY then
    ["Missing Arity for " ++ fileName ++ " " ++ a.text] else [])

/-- filterAction->setData(QVariant(fileName)). -/
def setData (a : FilterAction) (fileName : String) : FilterAction :=
  { a with data := some fileName }

/-- Whether any of the five common-interface casts succeeded, i.e. whether
the iCommon pointer is non-null after the classification block. -/
def iCommonCast (p : Plugin) : Bool :=
  p.filter.isSome || p.ioMesh.isSome || p.ioRaster.isSome ||
  p.decorate.isSome || p.render

/-- The if (iFilter) block of loadPlugins: run the five checks on every
action (emitting one diagnostic per violated check); if all pass, tag every
action with the file name, insert it into actionFilterMap keyed by its
display text, and append the module to filterPlugins. -/
def stepFilter (i : Nat) (fileName : String) (p : Plugin)
    (st : PluginManager) : PluginManager :=
  match p.filter with
  | none => st
  | some acts =>
    let st2 := { st with
      diagnostics := st.diagnostics ++ (acts.map (filterCheckDiags fileName)).flatten }
    if acts.all validFilterAction then
      { st2 with
        actionFilterMap :=
          acts.foldl (fun m a => qinsert m a.text (i, setData a fileName))
            st2.actionFilterMap,
        filterPlugins := st2.filterPlugins ++ [(i, p)] }
    else st2

/-- The if (iIOMesh) block: append the module to ioMeshPlugins. -/
def stepIoMesh (i : Nat) (p : Plugin) (st : PluginManager) : PluginManager :=
  { st with ioMeshPlugins :=
      st.ioMeshPlugins ++ (if p.ioMesh.isSome then [(i, p)] else []) }

/-- The if (iIORaster) block: append the module to ioRasterPlugins. -/
def stepIoRaster (i : Nat) (p : Plugin) (st : PluginManager) : PluginManager :=
  { st with ioRasterPlugins :=
      st.ioRasterPlugins ++ (if p.ioRaster.isSome then [(i, p)] else []) }

/-- The if (iDecorator) block: append the module to decoratePlugins and
each of its actions to decoratorActionList (initGlobalParameterList only
initializes the action defaults and touches no registry). -/
def stepDecorate (i : Nat) (p : Plugin) (st : PluginManager) : PluginManager :=
  { st with
    decoratePlugins :=
      st.decoratePlugins ++ (if p.decorate.isSome then [(i, p)] else []),
    decoratorActionList :=
      st.decoratorActionList ++ (p.decorate.getD []).map (fun a => (i, a)) }

/-- The if (iRender) block: append the module to renderPlugins. -/
def stepRender (i : Nat) (p : Plugin) (st : PluginManager) : PluginManager :=
  { st with renderPlugins :=
      st.renderPlugins ++ (if p.render then [(i, p)] else []) }

/-- The diagnostic printed to std::cerr when a plugin name is already in
the owner map. -/
def alreadyLoadedDiag (n : String) : String :=
  "Warning: " ++ n ++ " has been already loaded.\n"

/-- The if (iEditFactory) / else if (iCommon) block: an edit factory goes
to editPlugins (its actions to editActionList) and never to the owner map;
otherwise, if some cast succeeded, insert into ownerPlug keyed by the
declared plugin name unless that name is already present, in which case
only a diagnostic is emitted. -/
def stepEditOrOwner (i : Nat) (p : Plugin) (st : PluginManager) :
    PluginManager :=
  if p.editFactory.isSome then
    { st with
      editPlugins := st.editPlugins ++ [(i, p)],
      editActionList :=
        st.editActionList ++ (p.editFactory.getD []).map (fun a => (i, a)) }
  else if iCommonCast p then
    if qcontains st.ownerPlug p.pluginName then
      { st with diagnostics :=
          st.diagnostics ++ [alreadyLoadedDiag p.pluginName] }
    else
      { st with ownerPlug := qinsert st.ownerPlug p.pluginName (i, p) }
  else st

/-- Body of the load loop for a candidate whose root object was obtained:
record the file name, then run the classification blocks in source order. -/
def processLoadedPlugin (i : Nat) (fileName : String) (p : Plugin)
    (st : PluginManager) : PluginManager :=
  stepEditOrOwner i p (stepRender i p (stepDecorate i p (stepIoRaster i p
    (stepIoMesh i p (stepFilter i fileName p
      { st with pluginsLoaded := st.pluginsLoaded ++ [fileName] })))))

/-- One iteration of the load loop: on a successful load process the root
object, otherwise record the loader error text and continue. -/
def processCandidate (st : PluginManager) (i : Nat) (c : Candidate) :
    PluginManager :=
  if c.loads then processLoadedPlugin i c.fileName c.plugin st
  else { st with diagnostics := st.diagnostics ++ [c.errorString] }

/-- The load loop over the enumerated candidates, i counting the index of
the next candidate (the pointer-identity of its root object). -/
def loadPluginsLoop (st : PluginManager) (i : Nat) :
    List Candidate → PluginManager
  | [] => st
  | c :: rest => loadPluginsLoop (processCandidate st i c) (i + 1) rest

/-- QString::toLower, computed on the character list. -/
def strToLower (s : String) : String :=
  String.mk (s.data.map Char.toLower)

/-- One extension step of addPluginMeshFormats: lower-case the extension;
if unclaimed, claim it in the map and append it to the aggregate string;
unconditionally append it to the per-format entry being built. The
accumulator is (map, aggregate string, current filter entry). -/
def addMeshExtension (p : PluginRef)
    (acc : List (String × PluginRef) × String × String) (ext0 : String) :
    List (String × PluginRef) × String × String :=
  let ext := strToLower ext0
  if qcontains acc.1 ext then
    (acc.1, acc.2.1, acc.2.2 ++ " *." ++ ext)
  else
    (qinsert acc.1 ext p, acc.2.1 ++ " *." ++ ext, acc.2.2 ++ " *." ++ ext)

/-- One format step of addPluginMeshFormats: build the per-format filter
entry starting from the description, walk the extensions (claiming the
unclaimed ones), append the closed entry to the filter list. The
accumulator is (map, formatFilters, aggregate string). -/
def addMeshFormat (p : PluginRef)
    (acc : List (String × PluginRef) × List String × String)
    (currentFormat : FileFormat) :
    List (String × PluginRef) × List String × String :=
  let inner := currentFormat.extensions.foldl (addMeshExtension p)
    (acc.1, acc.2.2, currentFormat.description ++ " (")
  (inner.1, acc.2.1 ++ [inner.2.2 ++ ")"], inner.2.1)

/-- PluginManager::addPluginMeshFormats: walks the given formats, claiming
unclaimed lower-cased extensions in the map, appending one filter entry per
format to formatFilters, and returning the aggregate all-known-formats
fragment built from the newly claimed extensions. Result:
(map, formatFilters, returned aggregate string). -/
def addPluginMeshFormats (map : List (String × PluginRef))
    (formatFilters : List String) (p : PluginRef)
    (format : List FileFormat) :
    List (String × PluginRef) × List String × String :=
  format.foldl (addMeshFormat p) (map, formatFilters, "")

/-- PluginManager::addPluginRasterFormats: textually the same algorithm as
addPluginMeshFormats, run on the raster registries. -/
def addPluginRasterFormats (map : List (String × PluginRef))
    (formatFilters : List String) (p : PluginRef)
    (format : List FileFormat) :
    List (String × PluginRef) × List String × String :=
  format.foldl (addMeshFormat p) (map, formatFilters, "")

/-- One module step of the mesh-import part of fillKnownIOFormats: run
addPluginMeshFormats on the module's import formats and append the
returned fragment to the running all-known-formats string. -/
def addModuleImportFormats
    (acc : List (String × PluginRef) × List String × String)
    (p : PluginRef) :
    List (String × PluginRef) × List String × String :=
  let r := addPluginMeshFormats acc.1 acc.2.1 p p.2.importFormats
  (r.1, r.2.1, acc.2.2 ++ r.2.2)

/-- PluginManager::fillKnownIOFormats: fold the mesh import formats of the
ioMeshPlugins (in classification order) into the merged input table,
prepend the aggregate all-known-formats entry to the input filters, then
do the export formats, then the raster import formats. -/
def fillKnownIOFormats (st : PluginManager) : PluginManager :=
  let inp := st.ioMeshPlugins.foldl addModuleImportFormats
    (st.allKnowInputMeshFormats, st.inpMeshFilters, "All known formats (")
  let outp := st.ioMeshPlugins.foldl
    (fun acc p =>
      let r := addPluginMeshFormats acc.1 acc.2.1 p p.2.exportFormats
      (r.1, r.2.1, acc.2.2 ++ r.2.2))
    (st.allKnowOutputFormats, st.outFilters, "")
  let rast := st.ioRasterPlugins.foldl
    (fun acc p =>
      let r := addPluginRasterFormats acc.1 acc.2.1 p
        (p.2.ioRaster.getD [])
      (r.1, r.2.1, acc.2.2 ++ r.2.2))
    (st.allKnownInputRasterFormats, st.inpRasterFilters,
      "All known formats (")
  { st with
    allKnowInputMeshFormats := inp.1,
    inpMeshFilters := (inp.2.2 ++ ")") :: inp.2.1,
    allKnowOutputFormats := outp.1,
    outFilters := outp.2.1,
    allKnownInputRasterFormats := rast.1,
    inpRasterFilters := (rast.2.2 ++ ")") :: rast.2.1 }

/-- PluginManager::loadPlugins over a given enumeration of candidate
files: run the load loop from the fresh state and fill the format
registries. -/
def loadPlugins (cands : List Candidate) : PluginManager :=
  fillKnownIOFormats (loadPluginsLoop PluginManager.empty 0 cands)

/-- PluginManager::filterAction: the name-keyed filter action lookup;
nullptr on a miss is modelled as none. -/
def filterAction (st : PluginManager) (name : String) :
    Option (Nat × FilterAction) :=
  qlookup st.actionFilterMap name

/-- Outcome of PluginManager::getDecoratePlugin: either the first module
owning the decoration, or the assert(0) reached when no module matches. -/
inductive DecorateLookup where
  | found (p : PluginRef)
  | assertionFailure

/-- PluginManager::getDecoratePlugin: scan decoratePlugins in order and
return the first plugin one of whose actions has the given decoration
name; on no match the original runs assert(0). -/
def getDecoratePlugin (st : PluginManager) (name : String) : DecorateLookup :=
  match st.decoratePlugins.find?
      (fun tt => (tt.2.decorate.getD []).any
        (fun ac => name == ac.decorationName)) with
  | some tt => DecorateLookup.found tt
  | none => DecorateLookup.assertionFailure

/-- PluginManager::filterPluginIterator: iteration over filterPlugins. -/
def filterPluginIterator (st : PluginManager) : List PluginRef :=
  st.filterPlugins

/-- The root objects deleted by the destructor, in deletion order: the
capability lists are only cleared, then every ownerPlug value and every
editPlugins entry is deleted. -/
def teardownReleases (st : PluginManager) : List PluginRef :=
  st.ownerPlug.map (fun e => e.2) ++ st.editPlugins

/-- How many times teardown releases the module loaded at index i. -/
def releaseCount (st : PluginManager) (i : Nat) : Nat :=
  ((teardownReleases st).filter (fun r => r.1 == i)).length

/-- fileNamePrefixPluginDLLs: empty on Windows, the fixed lib otherwise. -/
def fileNamePrefixPluginDLLs (isWin : Bool) : String :=
  if isWin then "" else "lib"

/-- QFileInfo::fileName: the part of the path after the last slash,
computed on the character list. -/
def fileNameOfPath (p : String) : String :=
  String.mk (p.data.foldl (fun acc c => if c = '/' then [] else acc ++ [c]) [])

/-- QFileInfo::baseName: the file name up to (excluding) its first dot. -/
def baseName (p : String) : String :=
  String.mk ((fileNameOfPath p).data.takeWhile (fun c => c != '.'))

/-- PluginManager::osIndependentPluginName: take the base name of the path
and remove (QString::remove(0, n)) its first characters, as many as the
platform prefix is long, unconditionally. -/
def osIndependentPluginName (isWin : Bool) (plname : String) : String :=
  let res := baseName plname
  let pref := fileNamePrefixPluginDLLs isWin
  String.mk (res.data.drop pref.length)

/-- The fragments the per-format entry gains for a list of raw
extensions, in order: one lower-cased star-dot fragment per extension. -/
def extFragments : List String → String
  | [] => ""
  | x :: t => (" *." ++ strToLower x) ++ extFragments t

/-- The per-format filter entry addPluginMeshFormats builds for one
format: description, open parenthesis, every extension fragment
(unconditionally), close parenthesis. -/
def meshFormatEntry (fmt : FileFormat) : String :=
  fmt.description ++ " (" ++ extFragments fmt.extensions ++ ")"

/-- Whether a mesh-io module declares the (already lower-cased) extension
among its import formats. -/
def declaresImportExt (q : PluginRef) (k : String) : Bool :=
  q.2.importFormats.any (fun fmt => (fmt.extensions.map strToLower).contains k)

/-! ## Concrete sample modules and teardown views used by the claims -/

/-- Sample invalid filter action: arity is the unknown tag. -/
def C1act : FilterAction := ⟨"A", 5, 3, 3, 3, 4, none⟩

/-- Sample candidate: filter-capable with one malformed action, also
mesh-io capable. -/
def C1cand : Candidate :=
  ⟨"f.so", true, "",
    ⟨"PX", some [C1act], some ([], []), none, none, false, none⟩⟩

/-- Sample candidate: an edit factory whose root object also satisfies the
decorate and render contracts (so iCommon is set). -/
def C4cand : Candidate :=
  ⟨"e.so", true, "", ⟨"PE", none, none, none, some [], true, some ["edit1"]⟩⟩

/-- Sample invalid-filter-only candidate: the postcondition of its single
action is the unknown sentinel. -/
def C10cand : Candidate :=
  ⟨"g.so", true, "",
    ⟨"PY", some [⟨"B", 1, 2, 2, -1, 0, none⟩], none, none, none, false,
      none⟩⟩

/-- Sample first module declaring the shared name: render-capable. -/
def C5candA : Candidate :=
  ⟨"a.so", true, "", ⟨"PN", none, none, none, none, true, none⟩⟩

/-- Sample second module declaring the same name: decorate- and
render-capable. -/
def C5candB : Candidate :=
  ⟨"b.so", true, "", ⟨"PN", none, none, none, some [], true, none⟩⟩

/-- Sample earlier filter module with a valid action named Dup. -/
def C3candA : Candidate :=
  ⟨"a.so", true, "",
    ⟨"PA", some [⟨"Dup", 1, 2, 2, 2, 1, none⟩], none, none, none, false,
      none⟩⟩

/-- Sample later filter module with a different valid action, same
display name Dup. -/
def C3candB : Candidate :=
  ⟨"b.so", true, "",
    ⟨"PB", some [⟨"Dup", 3, 5, 5, 5, 2, none⟩], none, none, none, false,
      none⟩⟩

/-- Sample decorate module owning the decoration Shadow. -/
def C6candA : Candidate :=
  ⟨"d1.so", true, "",
    ⟨"PD1", none, none, none, some [⟨"actA", "Shadow"⟩], false, none⟩⟩

/-- Sample second decorate module, also exposing Shadow plus Grid. -/
def C6candB : Candidate :=
  ⟨"d2.so", true, "",
    ⟨"PD2", none, none, none,
      some [⟨"actB", "Shadow"⟩, ⟨"actC", "Grid"⟩], false, none⟩⟩

/-- Sample candidates: two that load, two that do not. -/
def C8candA : Candidate :=
  ⟨"a.so", true, "", ⟨"PA", none, none, none, none, true, none⟩⟩

/-- Sample failing candidate B with its loader error text. -/
def C8candB : Candidate :=
  ⟨"b.so", false, "not a module B",
    ⟨"PB", none, none, none, none, false, none⟩⟩

/-- Sample loading candidate C. -/
def C8candC : Candidate :=
  ⟨"c.so", true, "", ⟨"PC", none, none, none, none, false, none⟩⟩

/-- Sample failing candidate D. -/
def C8candD : Candidate :=
  ⟨"d.so", false, "not a module D",
    ⟨"PD", none, none, none, none, false, none⟩⟩

/-- Owner-map part of the indices released at teardown. -/
def ownerIds (st : PluginManager) : List Nat :=
  st.ownerPlug.map (fun e => e.2.1)

/-- Edit-factory part of the indices released at teardown. -/
def editIds (st : PluginManager) : List Nat :=
  st.editPlugins.map (fun r => r.1)

/-- Indices of the modules the destructor deletes, in deletion order. -/
def releaseIds (st : PluginManager) : List Nat :=
  (teardownReleases st).map (fun r => r.1)

/-- Sample mesh-io module named PM. -/
def C7candA : Candidate :=
  ⟨"a.so", true, "", ⟨"PM", none, some ([], []), none, none, false, none⟩⟩

/-- Second sample mesh-io module declaring the same name PM. -/
def C7candB : Candidate :=
  ⟨"b.so", true, "", ⟨"PM", none, some ([], []), none, none, false, none⟩⟩

/-- Sample first mesh-io module, declaring extension XYZ (upper case). -/
def C2mod1 : PluginRef :=
  (0, ⟨"M1", none, some ([⟨"Mesh Format One", ["XYZ"]⟩], []), none, none,
    false, none⟩)

/-- Sample second mesh-io module, re-declaring xyz plus a fresh abc. -/
def C2mod2 : PluginRef :=
  (1, ⟨"M2", none, some ([⟨"Mesh Format Two", ["xyz", "abc"]⟩], []), none,
    none, false, none⟩)

/-- Sample manager state holding the two sample mesh-io modules in
classification order. -/
def C2state : PluginManager :=
  { PluginManager.empty with ioMeshPlugins := [C2mod1, C2mod2] }

/-! ## Basic lemmas about the QMap model -/

theorem qlookup_qinsert_self {α : Type} (m : List (String × α)) (k : String)
    (v : α) : qlookup (qinsert m k v) k = some v := by
  induction m with
  | nil => simp [qinsert, qlookup]
  | cons e t ih =>
    by_cases h : e.1 = k
    · simp [qinsert, h, qlookup]
    · simp [qinsert, h, qlookup, ih]

theorem qlookup_qinsert_ne {α : Type} (m : List (String × α))
    (k k2 : String) (v : α) (h : k2 ≠ k) :
    qlookup (qinsert m k v) k2 = qlookup m k2 := by
  induction m with
  | nil => simp [qinsert, qlookup, Ne.symm h]
  | cons e t ih =>
    obtain ⟨ek, ev⟩ := e
    simp only [qinsert, qlookup]
    by_cases he : ek = k
    · rw [if_pos he]
      simp only [qlookup]
      have h1 : ek ≠ k2 := by rw [he]; exact Ne.symm h
      rw [if_neg h1, if_neg h1]
    · rw [if_neg he]
      simp only [qlookup]
      by_cases h2 : ek = k2
      · rw [if_pos h2, if_pos h2]
      · rw [if_neg h2, if_neg h2, ih]

theorem qinsert_of_lookup_none {α : Type} (m : List (String × α))
    (k : String) (v : α) (h : qlookup m k = none) :
    qinsert m k v = m ++ [(k, v)] := by
  induction m with
  | nil => simp [qinsert]
  | cons e t ih =>
    by_cases he : e.1 = k
    · simp [qlookup, he] at h
    · simp only [qlookup, he, if_false] at h
      simp [qinsert, he, ih h]

theorem qlookup_none_iff_keys_ne {α : Type} (m : List (String × α))
    (k : String) : qlookup m k = none ↔ ∀ e ∈ m, e.1 ≠ k := by
  induction m with
  | nil => simp [qlookup]
  | cons e t ih =>
    by_cases he : e.1 = k
    · simp [qlookup, he]
    · simp [qlookup, he, ih]

theorem keyCount_eq_zero_iff {α : Type} (m : List (String × α))
    (k : String) : keyCount m k = 0 ↔ qlookup m k = none := by
  rw [qlookup_none_iff_keys_ne]
  simp only [keyCount, List.length_eq_zero, List.filter_eq_nil_iff]
  constructor
  · intro h e he
    have := h e he
    simpa using this
  · intro h e he
    simpa using h e he

theorem keyCount_append {α : Type} (m1 m2 : List (String × α)) (k : String) :
    keyCount (m1 ++ m2) k = keyCount m1 k + keyCount m2 k := by
  simp [keyCount, List.filter_append]

/-! ## Characterization of the classification steps -/

theorem stepFilter_of_invalid (i : Nat) (f : String) (p : Plugin)
    (st : PluginManager) (acts : List FilterAction)
    (hf : p.filter = some acts) (hv : acts.all validFilterAction = false) :
    stepFilter i f p st =
      { st with diagnostics :=
          st.diagnostics ++ (acts.map (filterCheckDiags f)).flatten } := by
  simp [stepFilter, hf, hv]

theorem stepFilter_of_valid (i : Nat) (f : String) (p : Plugin)
    (st : PluginManager) (acts : List FilterAction)
    (hf : p.filter = some acts) (hv : acts.all validFilterAction = true) :
    stepFilter i f p st =
      { st with
        diagnostics :=
          st.diagnostics ++ (acts.map (filterCheckDiags f)).flatten,
        actionFilterMap :=
          acts.foldl (fun m a => qinsert m a.text (i, setData a f))
            st.actionFilterMap,
        filterPlugins := st.filterPlugins ++ [(i, p)] } := by
  simp [stepFilter, hf, hv]

@[simp] theorem stepFilter_pluginsLoaded (i : Nat) (f : String) (p : Plugin)
    (st : PluginManager) :
    (stepFilter i f p st).pluginsLoaded = st.pluginsLoaded := by
  unfold stepFilter
  cases p.filter with
  | none => rfl
  | some acts => by_cases hv : acts.all validFilterAction <;> simp [hv]

@[simp] theorem stepFilter_ioMeshPlugins (i : Nat) (f : String) (p : Plugin)
    (st : PluginManager) :
    (stepFilter i f p st).ioMeshPlugins = st.ioMeshPlugins := by
  unfold stepFilter
  cases p.filter with
  | none => rfl
  | some acts => by_cases hv : acts.all validFilterAction <;> simp [hv]

@[simp] theorem stepFilter_ioRasterPlugins (i : Nat) (f : String) (p : Plugin)
    (st : PluginManager) :
    (stepFilter i f p st).ioRasterPlugins = st.ioRasterPlugins := by
  unfold stepFilter
  cases p.filter with
  | none => rfl
  | some acts => by_cases hv : acts.all validFilterAction <;> simp [hv]

@[simp] theorem stepFilter_decoratePlugins (i : Nat) (f : String) (p : Plugin)
    (st : PluginManager) :
    (stepFilter i f p st).decoratePlugins = st.decoratePlugins := by
  unfold stepFilter
  cases p.filter with
  | none => rfl
  | some acts => by_cases hv : acts.all validFilterAction <;> simp [hv]

@[simp] theorem stepFilter_renderPlugins (i : Nat) (f : String) (p : Plugin)
    (st : PluginManager) :
    (stepFilter i f p st).renderPlugins = st.renderPlugins := by
  unfold stepFilter
  cases p.filter with
  | none => rfl
  | some acts => by_cases hv : acts.all validFilterAction <;> simp [hv]

@[simp] theorem stepFilter_decoratorActionList (i : Nat) (f : String)
    (p : Plugin) (st : PluginManager) :
    (stepFilter i f p st).decoratorActionList = st.decoratorActionList := by
  unfold stepFilter
  cases p.filter with
  | none => rfl
  | some acts => by_cases hv : acts.all validFilterAction <;> simp [hv]

@[simp] theorem stepFilter_editPlugins (i : Nat) (f : String) (p : Plugin)
    (st : PluginManager) :
    (stepFilter i f p st).editPlugins = st.editPlugins := by
  unfold stepFilter
  cases p.filter with
  | none => rfl
  | some acts => by_cases hv : acts.all validFilterAction <;> simp [hv]

@[simp] theorem stepFilter_editActionList (i : Nat) (f : String) (p : Plugin)
    (st : PluginManager) :
    (stepFilter i f p st).editActionList = st.editActionList := by
  unfold stepFilter
  cases p.filter with
  | none => rfl
  | some acts => by_cases hv : acts.all validFilterAction <;> simp [hv]

@[simp] theorem stepFilter_ownerPlug (i : Nat) (f : String) (p : Plugin)
    (st : PluginManager) :
    (stepFilter i f p st).ownerPlug = st.ownerPlug := by
  unfold stepFilter
  cases p.filter with
  | none => rfl
  | some acts => by_cases hv : acts.all validFilterAction <;> simp [hv]

@[simp] theorem stepEditOrOwner_pluginsLoaded (i : Nat) (p : Plugin)
    (st : PluginManager) :
    (stepEditOrOwner i p st).pluginsLoaded = st.pluginsLoaded := by
  unfold stepEditOrOwner
  by_cases h1 : p.editFactory.isSome <;>
    by_cases h2 : iCommonCast p <;>
    by_cases h3 : qcontains st.ownerPlug p.pluginName <;>
    simp [h1, h2, h3]

@[simp] theorem stepEditOrOwner_filterPlugins (i : Nat) (p : Plugin)
    (st : PluginManager) :
    (stepEditOrOwner i p st).filterPlugins = st.filterPlugins := by
  unfold stepEditOrOwner
  by_cases h1 : p.editFactory.isSome <;>
    by_cases h2 : iCommonCast p <;>
    by_cases h3 : qcontains st.ownerPlug p.pluginName <;>
    simp [h1, h2, h3]

@[simp] theorem stepEditOrOwner_actionFilterMap (i : Nat) (p : Plugin)
    (st : PluginManager) :
    (stepEditOrOwner i p st).actionFilterMap = st.actionFilterMap := by
  unfold stepEditOrOwner
  by_cases h1 : p.editFactory.isSome <;>
    by_cases h2 : iCommonCast p <;>
    by_cases h3 : qcontains st.ownerPlug p.pluginName <;>
    simp [h1, h2, h3]

@[simp] theorem stepEditOrOwner_ioMeshPlugins (i : Nat) (p : Plugin)
    (st : PluginManager) :
    (stepEditOrOwner i p st).ioMeshPlugins = st.ioMeshPlugins := by
  unfold stepEditOrOwner
  by_cases h1 : p.editFactory.isSome <;>
    by_cases h2 : iCommonCast p <;>
    by_cases h3 : qcontains st.ownerPlug p.pluginName <;>
    simp [h1, h2, h3]

@[simp] theorem stepEditOrOwner_ioRasterPlugins (i : Nat) (p : Plugin)
    (st : PluginManager) :
    (stepEditOrOwner i p st).ioRasterPlugins = st.ioRasterPlugins := by
  unfold stepEditOrOwner
  by_cases h1 : p.editFactory.isSome <;>
    by_cases h2 : iCommonCast p <;>
    by_cases h3 : qcontains st.ownerPlug p.pluginName <;>
    simp [h1, h2, h3]

@[simp] theorem stepEditOrOwner_decoratePlugins (i : Nat) (p : Plugin)
    (st : PluginManager) :
    (stepEditOrOwner i p st).decoratePlugins = st.decoratePlugins := by
  unfold stepEditOrOwner
  by_cases h1 : p.editFactory.isSome <;>
    by_cases h2 : iCommonCast p <;>
    by_cases h3 : qcontains st.ownerPlug p.pluginName <;>
    simp [h1, h2, h3]

@[simp] theorem stepEditOrOwner_renderPlugins (i : Nat) (p : Plugin)
    (st : PluginManager) :
    (stepEditOrOwner i p st).renderPlugins = st.renderPlugins := by
  unfold stepEditOrOwner
  by_cases h1 : p.editFactory.isSome <;>
    by_cases h2 : iCommonCast p <;>
    by_cases h3 : qcontains st.ownerPlug p.pluginName <;>
    simp [h1, h2, h3]

@[simp] theorem stepEditOrOwner_decoratorActionList (i : Nat) (p : Plugin)
    (st : PluginManager) :
    (stepEditOrOwner i p st).decoratorActionList = st.decoratorActionList := by
  unfold stepEditOrOwner
  by_cases h1 : p.editFactory.isSome <;>
    by_cases h2 : iCommonCast p <;>
    by_cases h3 : qcontains st.ownerPlug p.pluginName <;>
    simp [h1, h2, h3]

/-! ## Claim C1 -/

/-- C1: if any action of a filter-capable module fails any of the five
metadata checks, the module contributes zero entries to the name-keyed
action registry (and is not appended to the filter plugin list), while its
other capability registrations proceed exactly as usual: the mesh-io,
raster-io, decorate, render and edit lists receive the module iff the
respective cast succeeds, and the owner-map registration is unaffected by
the rejection. -/
theorem C1_invalid_filter_module_contributes_no_actions
    (st : PluginManager) (i : Nat) (c : Candidate)
    (acts : List FilterAction)
    (hload : c.loads = true)
    (hfilter : c.plugin.filter = some acts)
    (hbad : ∃ a ∈ acts, validFilterAction a = false) :
    (processCandidate st i c).actionFilterMap = st.actionFilterMap ∧
    (processCandidate st i c).filterPlugins = st.filterPlugins ∧
    (processCandidate st i c).ioMeshPlugins =
      st.ioMeshPlugins ++
        (if c.plugin.ioMesh.isSome then [(i, c.plugin)] else []) ∧
    (processCandidate st i c).ioRasterPlugins =
      st.ioRasterPlugins ++
        (if c.plugin.ioRaster.isSome then [(i, c.plugin)] else []) ∧
    (processCandidate st i c).decoratePlugins =
      st.decoratePlugins ++
        (if c.plugin.decorate.isSome then [(i, c.plugin)] else []) ∧
    (processCandidate st i c).renderPlugins =
      st.renderPlugins ++
        (if c.plugin.render then [(i, c.plugin)] else []) ∧
    (processCandidate st i c).editPlugins =
      st.editPlugins ++
        (if c.plugin.editFactory.isSome then [(i, c.plugin)] else []) ∧
    (processCandidate st i c).ownerPlug =
      (if c.plugin.editFactory.isSome then st.ownerPlug
       else if qcontains st.ownerPlug c.plugin.pluginName then st.ownerPlug
       else qinsert st.ownerPlug c.plugin.pluginName (i, c.plugin)) := by
  have hall : acts.all validFilterAction = false := by
    rcases hbad with ⟨a, ha, hv⟩
    cases hok : acts.all validFilterAction
    · rfl
    · exfalso
      rw [List.all_eq_true] at hok
      have h2 := hok a ha
      rw [hv] at h2
      exact Bool.noConfusion h2
  have hic : iCommonCast c.plugin = true := by
    simp [iCommonCast, hfilter]
  simp only [processCandidate, hload, if_true, processLoadedPlugin]
  rw [stepFilter_of_invalid _ _ _ _ _ hfilter hall]
  refine ⟨?_, ?_, ?_, ?_, ?_, ?_, ?_, ?_⟩
  · simp [stepIoMesh, stepIoRaster, stepDecorate, stepRender]
  · simp [stepIoMesh, stepIoRaster, stepDecorate, stepRender]
  · simp [stepIoMesh, stepIoRaster, stepDecorate, stepRender]
  · simp [stepIoMesh, stepIoRaster, stepDecorate, stepRender]
  · simp [stepIoMesh, stepIoRaster, stepDecorate, stepRender]
  · simp [stepIoMesh, stepIoRaster, stepDecorate, stepRender]
  · by_cases hef : c.plugin.editFactory.isSome
    · simp [stepEditOrOwner, hef, hic, stepIoMesh, stepIoRaster,
        stepDecorate, stepRender]
    · by_cases hq : qcontains st.ownerPlug c.plugin.pluginName <;>
        simp [stepEditOrOwner, hef, hic, hq, stepIoMesh, stepIoRaster,
          stepDecorate, stepRender]
  · by_cases hef : c.plugin.editFactory.isSome
    · simp [stepEditOrOwner, hef, stepIoMesh, stepIoRaster, stepDecorate,
        stepRender]
    · by_cases hq : qcontains st.ownerPlug c.plugin.pluginName <;>
        simp [stepEditOrOwner, hef, hic, hq, stepIoMesh, stepIoRaster,
          stepDecorate, stepRender]

/-- C1 witness: on the sample candidate the action registry and filter
list stay empty while the mesh-io list and the owner map receive the
module. -/
theorem C1_invalid_filter_module_contributes_no_actions_witness :
    (processCandidate PluginManager.empty 0 C1cand).actionFilterMap = [] ∧
    (processCandidate PluginManager.empty 0 C1cand).filterPlugins = [] ∧
    (processCandidate PluginManager.empty 0 C1cand).ioMeshPlugins =
      [(0, C1cand.plugin)] ∧
    (processCandidate PluginManager.empty 0 C1cand).ownerPlug =
      [("PX", (0, C1cand.plugin))] := by
  have h := C1_invalid_filter_module_contributes_no_actions
    PluginManager.empty 0 C1cand [C1act] rfl rfl
    ⟨C1act, List.mem_singleton.mpr rfl, by decide⟩
  refine ⟨h.1, h.2.1, ?_, ?_⟩
  · rw [h.2.2.1]; rfl
  · rw [h.2.2.2.2.2.2.2]; rfl

/-! ## Claim C4 -/

/-- C4: a candidate whose root object satisfies the edit-factory contract
is appended to the edit-factory list, and the owner map is left completely
unchanged (in particular its size), even when other capability casts
succeed for the same root object. -/
theorem C4_edit_factory_not_in_owner_map
    (st : PluginManager) (i : Nat) (c : Candidate) (eas : List String)
    (hload : c.loads = true)
    (hef : c.plugin.editFactory = some eas) :
    (processCandidate st i c).editPlugins = st.editPlugins ++ [(i, c.plugin)] ∧
    (processCandidate st i c).ownerPlug = st.ownerPlug ∧
    (processCandidate st i c).ownerPlug.length = st.ownerPlug.length := by
  have hefs : c.plugin.editFactory.isSome = true := by rw [hef]; rfl
  refine ⟨?_, ?_, ?_⟩ <;>
    simp [processCandidate, hload, processLoadedPlugin, stepEditOrOwner, hefs,
      stepIoMesh, stepIoRaster, stepDecorate, stepRender]

/-- C4 witness: the sample edit factory (which also matches decorate and
render) lands in the edit list and the owner map stays empty. -/
theorem C4_edit_factory_not_in_owner_map_witness :
    (processCandidate PluginManager.empty 0 C4cand).editPlugins =
      [(0, C4cand.plugin)] ∧
    iCommonCast C4cand.plugin = true ∧
    (processCandidate PluginManager.empty 0 C4cand).ownerPlug.length = 0 := by
  have h := C4_edit_factory_not_in_owner_map
    PluginManager.empty 0 C4cand ["edit1"] rfl rfl
  exact ⟨h.1, rfl, h.2.2⟩

/-! ## Generic effect of one candidate on each registry -/

theorem stepFilter_of_none (i : Nat) (f : String) (p : Plugin)
    (st : PluginManager) (hf : p.filter = none) :
    stepFilter i f p st = st := by
  simp [stepFilter, hf]

@[simp] theorem stepFilter_diagnostics (i : Nat) (f : String) (p : Plugin)
    (st : PluginManager) :
    (stepFilter i f p st).diagnostics =
      st.diagnostics ++
        ((p.filter.getD []).map (filterCheckDiags f)).flatten := by
  unfold stepFilter
  cases p.filter with
  | none => simp
  | some acts => by_cases hv : acts.all validFilterAction <;> simp [hv]

@[simp] theorem stepEditOrOwner_editPlugins (i : Nat) (p : Plugin)
    (st : PluginManager) :
    (stepEditOrOwner i p st).editPlugins =
      st.editPlugins ++ (if p.editFactory.isSome then [(i, p)] else []) := by
  unfold stepEditOrOwner
  by_cases h1 : p.editFactory.isSome <;>
    by_cases h2 : iCommonCast p <;>
    by_cases h3 : qcontains st.ownerPlug p.pluginName <;>
    simp [h1, h2, h3]

@[simp] theorem stepEditOrOwner_editActionList (i : Nat) (p : Plugin)
    (st : PluginManager) :
    (stepEditOrOwner i p st).editActionList =
      st.editActionList ++
        (if p.editFactory.isSome then
          (p.editFactory.getD []).map (fun a => (i, a)) else []) := by
  unfold stepEditOrOwner
  by_cases h1 : p.editFactory.isSome <;>
    by_cases h2 : iCommonCast p <;>
    by_cases h3 : qcontains st.ownerPlug p.pluginName <;>
    simp [h1, h2, h3]

@[simp] theorem stepEditOrOwner_ownerPlug (i : Nat) (p : Plugin)
    (st : PluginManager) :
    (stepEditOrOwner i p st).ownerPlug =
      (if p.editFactory.isSome then st.ownerPlug
       else if iCommonCast p then
         (if qcontains st.ownerPlug p.pluginName then st.ownerPlug
          else qinsert st.ownerPlug p.pluginName (i, p))
       else st.ownerPlug) := by
  unfold stepEditOrOwner
  by_cases h1 : p.editFactory.isSome <;>
    by_cases h2 : iCommonCast p <;>
    by_cases h3 : qcontains st.ownerPlug p.pluginName <;>
    simp [h1, h2, h3]

@[simp] theorem stepEditOrOwner_diagnostics (i : Nat) (p : Plugin)
    (st : PluginManager) :
    (stepEditOrOwner i p st).diagnostics =
      st.diagnostics ++
        (if p.editFactory.isSome then []
         else if iCommonCast p && qcontains st.ownerPlug p.pluginName then
           [alreadyLoadedDiag p.pluginName]
         else []) := by
  unfold stepEditOrOwner
  by_cases h1 : p.editFactory.isSome <;>
    by_cases h2 : iCommonCast p <;>
    by_cases h3 : qcontains st.ownerPlug p.pluginName <;>
    simp [h1, h2, h3]

theorem processCandidate_pluginsLoaded (st : PluginManager) (i : Nat)
    (c : Candidate) :
    (processCandidate st i c).pluginsLoaded =
      st.pluginsLoaded ++ (if c.loads then [c.fileName] else []) := by
  by_cases hl : c.loads <;>
    simp [processCandidate, hl, processLoadedPlugin, stepIoMesh,
      stepIoRaster, stepDecorate, stepRender]

theorem processCandidate_ioMeshPlugins (st : PluginManager) (i : Nat)
    (c : Candidate) (hl : c.loads = true) :
    (processCandidate st i c).ioMeshPlugins =
      st.ioMeshPlugins ++
        (if c.plugin.ioMesh.isSome then [(i, c.plugin)] else []) := by
  simp [processCandidate, hl, processLoadedPlugin, stepIoMesh, stepIoRaster,
    stepDecorate, stepRender]

theorem processCandidate_ioRasterPlugins (st : PluginManager) (i : Nat)
    (c : Candidate) (hl : c.loads = true) :
    (processCandidate st i c).ioRasterPlugins =
      st.ioRasterPlugins ++
        (if c.plugin.ioRaster.isSome then [(i, c.plugin)] else []) := by
  simp [processCandidate, hl, processLoadedPlugin, stepIoMesh, stepIoRaster,
    stepDecorate, stepRender]

theorem processCandidate_decoratePlugins (st : PluginManager) (i : Nat)
    (c : Candidate) (hl : c.loads = true) :
    (processCandidate st i c).decoratePlugins =
      st.decoratePlugins ++
        (if c.plugin.decorate.isSome then [(i, c.plugin)] else []) := by
  simp [processCandidate, hl, processLoadedPlugin, stepIoMesh, stepIoRaster,
    stepDecorate, stepRender]

theorem processCandidate_renderPlugins (st : PluginManager) (i : Nat)
    (c : Candidate) (hl : c.loads = true) :
    (processCandidate st i c).renderPlugins =
      st.renderPlugins ++
        (if c.plugin.render then [(i, c.plugin)] else []) := by
  simp [processCandidate, hl, processLoadedPlugin, stepIoMesh, stepIoRaster,
    stepDecorate, stepRender]

theorem processCandidate_editPlugins (st : PluginManager) (i : Nat)
    (c : Candidate) (hl : c.loads = true) :
    (processCandidate st i c).editPlugins =
      st.editPlugins ++
        (if c.plugin.editFactory.isSome then [(i, c.plugin)] else []) := by
  simp [processCandidate, hl, processLoadedPlugin, stepIoMesh, stepIoRaster,
    stepDecorate, stepRender]

theorem processCandidate_ownerPlug_new (st : PluginManager) (i : Nat)
    (c : Candidate) (hl : c.loads = true)
    (hef : c.plugin.editFactory = none)
    (hic : iCommonCast c.plugin = true)
    (hq : qlookup st.ownerPlug c.plugin.pluginName = none) :
    (processCandidate st i c).ownerPlug =
      st.ownerPlug ++ [(c.plugin.pluginName, (i, c.plugin))] := by
  have hefs : c.plugin.editFactory.isSome = false := by rw [hef]; rfl
  have hqc : qcontains st.ownerPlug c.plugin.pluginName = false := by
    simp [qcontains, hq]
  simp [processCandidate, hl, processLoadedPlugin, stepIoMesh, stepIoRaster,
    stepDecorate, stepRender, hefs, hic, hqc,
    qinsert_of_lookup_none _ _ _ hq]

theorem processCandidate_ownerPlug_dup (st : PluginManager) (i : Nat)
    (c : Candidate) (hl : c.loads = true)
    (hq : qcontains st.ownerPlug c.plugin.pluginName = true) :
    (processCandidate st i c).ownerPlug = st.ownerPlug := by
  have hefs := c.plugin.editFactory.isSome
  by_cases hef : c.plugin.editFactory.isSome <;>
    by_cases hic : iCommonCast c.plugin <;>
    simp [processCandidate, hl, processLoadedPlugin, stepIoMesh, stepIoRaster,
      stepDecorate, stepRender, hef, hic, hq]

theorem processCandidate_diagnostics_mono (st : PluginManager) (i : Nat)
    (c : Candidate) :
    ∃ l, (processCandidate st i c).diagnostics = st.diagnostics ++ l := by
  by_cases hl : c.loads
  · refine ⟨((c.plugin.filter.getD []).map
        (filterCheckDiags c.fileName)).flatten ++
      (if c.plugin.editFactory.isSome then []
       else if iCommonCast c.plugin &&
           qcontains st.ownerPlug c.plugin.pluginName then
         [alreadyLoadedDiag c.plugin.pluginName]
       else []), ?_⟩
    simp [processCandidate, hl, processLoadedPlugin, stepIoMesh, stepIoRaster,
      stepDecorate, stepRender]
  · exact ⟨[c.errorString], by simp [processCandidate, hl]⟩

theorem processCandidate_diagnostics_fail (st : PluginManager) (i : Nat)
    (c : Candidate) (hl : c.loads = false) :
    (processCandidate st i c).diagnostics =
      st.diagnostics ++ [c.errorString] := by
  simp [processCandidate, hl]

theorem processCandidate_diag_dup (st : PluginManager) (j : Nat)
    (c : Candidate) (hl : c.loads = true)
    (hef : c.plugin.editFactory = none)
    (hic : iCommonCast c.plugin = true)
    (hq : qcontains st.ownerPlug c.plugin.pluginName = true) :
    alreadyLoadedDiag c.plugin.pluginName ∈
      (processCandidate st j c).diagnostics := by
  have hefs : c.plugin.editFactory.isSome = false := by rw [hef]; rfl
  simp [processCandidate, hl, processLoadedPlugin, stepIoMesh, stepIoRaster,
    stepDecorate, stepRender, hefs, hic, hq]

theorem qlookup_append_right {α : Type} (m1 m2 : List (String × α))
    (k : String) (h : qlookup m1 k = none) :
    qlookup (m1 ++ m2) k = qlookup m2 k := by
  induction m1 with
  | nil => rfl
  | cons e t ih =>
    by_cases he : e.1 = k
    · simp [qlookup, he] at h
    · simp only [qlookup, he, if_false] at h
      simpa [qlookup, he] using ih h

theorem qlookup_append_left {α : Type} (m1 m2 : List (String × α))
    (k : String) (v : α) (h : qlookup m1 k = some v) :
    qlookup (m1 ++ m2) k = some v := by
  induction m1 with
  | nil => simp [qlookup] at h
  | cons e t ih =>
    by_cases he : e.1 = k
    · simp only [qlookup, he, if_true] at h ⊢
      simp [qlookup, he] at h
      simp [List.cons_append, qlookup, he, h]
    · simp only [qlookup, he, if_false] at h
      simpa [qlookup, he] using ih h

/-! ## Claim C10 -/

/-- C10: a filter-capable module that fails validation is absent from the
filter plugin iteration list, not only from the action registry; yet the
(successful) filter cast set the common-interface pointer, so the module
is still inserted into the owner map under its declared name when that
name is free and the module is not an edit factory. -/
theorem C10_invalid_filter_module_still_owner_registered
    (st : PluginManager) (i : Nat) (c : Candidate)
    (acts : List FilterAction)
    (hload : c.loads = true)
    (hfilter : c.plugin.filter = some acts)
    (hbad : ∃ a ∈ acts, validFilterAction a = false)
    (hef : c.plugin.editFactory = none)
    (hq : qlookup st.ownerPlug c.plugin.pluginName = none) :
    filterPluginIterator (processCandidate st i c) =
      filterPluginIterator st ∧
    (processCandidate st i c).actionFilterMap = st.actionFilterMap ∧
    iCommonCast c.plugin = true ∧
    (processCandidate st i c).ownerPlug =
      st.ownerPlug ++ [(c.plugin.pluginName, (i, c.plugin))] := by
  have hall : acts.all validFilterAction = false := by
    rcases hbad with ⟨a, ha, hv⟩
    cases hok : acts.all validFilterAction
    · rfl
    · exfalso
      rw [List.all_eq_true] at hok
      have h2 := hok a ha
      rw [hv] at h2
      exact Bool.noConfusion h2
  have hic : iCommonCast c.plugin = true := by
    simp [iCommonCast, hfilter]
  have hefs : c.plugin.editFactory.isSome = false := by rw [hef]; rfl
  have hqc : qcontains st.ownerPlug c.plugin.pluginName = false := by
    simp [qcontains, hq]
  refine ⟨?_, ?_, hic, ?_⟩ <;>
  · simp only [processCandidate, hload, if_true, processLoadedPlugin,
      filterPluginIterator]
    rw [stepFilter_of_invalid _ _ _ _ _ hfilter hall]
    simp [stepIoMesh, stepIoRaster, stepDecorate, stepRender, hefs, hic,
      hqc, qinsert_of_lookup_none _ _ _ hq]

/-- C10 witness: the sample module stays out of the filter iteration list
and the action registry but lands in the owner map under its name. -/
theorem C10_invalid_filter_module_still_owner_registered_witness :
    filterPluginIterator (processCandidate PluginManager.empty 0 C10cand) =
      [] ∧
    (processCandidate PluginManager.empty 0 C10cand).actionFilterMap = [] ∧
    (processCandidate PluginManager.empty 0 C10cand).ownerPlug =
      [("PY", (0, C10cand.plugin))] := by
  have h := C10_invalid_filter_module_still_owner_registered
    PluginManager.empty 0 C10cand [⟨"B", 1, 2, 2, -1, 0, none⟩] rfl rfl
    ⟨⟨"B", 1, 2, 2, -1, 0, none⟩, List.mem_singleton.mpr rfl, by decide⟩
    rfl rfl
  exact ⟨h.1, h.2.1, h.2.2.2⟩

/-! ## Claim C5 -/

/-- C5: when two modules declare the same unique name, the owner map ends
with exactly one entry for that name, bound to the first-processed module,
a diagnostic is emitted for the second, and the second module's
capability-specific list memberships recorded before the rejected
insertion remain intact. -/
theorem C5_duplicate_plugin_name_first_wins
    (st : PluginManager) (i j : Nat) (cA cB : Candidate) (nm : String)
    (hloadA : cA.loads = true) (hloadB : cB.loads = true)
    (hnmA : cA.plugin.pluginName = nm) (hnmB : cB.plugin.pluginName = nm)
    (hefA : cA.plugin.editFactory = none)
    (hefB : cB.plugin.editFactory = none)
    (hicA : iCommonCast cA.plugin = true)
    (hicB : iCommonCast cB.plugin = true)
    (hq : qlookup st.ownerPlug nm = none) :
    qlookup (processCandidate (processCandidate st i cA) j cB).ownerPlug
      nm = some (i, cA.plugin) ∧
    keyCount (processCandidate (processCandidate st i cA) j cB).ownerPlug
      nm = keyCount st.ownerPlug nm + 1 ∧
    alreadyLoadedDiag nm ∈
      (processCandidate (processCandidate st i cA) j cB).diagnostics ∧
    (processCandidate (processCandidate st i cA) j cB).ioMeshPlugins =
      (processCandidate st i cA).ioMeshPlugins ++
        (if cB.plugin.ioMesh.isSome then [(j, cB.plugin)] else []) ∧
    (processCandidate (processCandidate st i cA) j cB).ioRasterPlugins =
      (processCandidate st i cA).ioRasterPlugins ++
        (if cB.plugin.ioRaster.isSome then [(j, cB.plugin)] else []) ∧
    (processCandidate (processCandidate st i cA) j cB).decoratePlugins =
      (processCandidate st i cA).decoratePlugins ++
        (if cB.plugin.decorate.isSome then [(j, cB.plugin)] else []) ∧
    (processCandidate (processCandidate st i cA) j cB).renderPlugins =
      (processCandidate st i cA).renderPlugins ++
        (if cB.plugin.render then [(j, cB.plugin)] else []) := by
  have hqA : qlookup st.ownerPlug cA.plugin.pluginName = none := by
    rw [hnmA]; exact hq
  have h1 : (processCandidate st i cA).ownerPlug =
      st.ownerPlug ++ [(nm, (i, cA.plugin))] := by
    rw [processCandidate_ownerPlug_new st i cA hloadA hefA hicA hqA, hnmA]
  have hlook1 : qlookup (processCandidate st i cA).ownerPlug nm =
      some (i, cA.plugin) := by
    rw [h1, qlookup_append_right _ _ _ hq]
    simp [qlookup]
  have hcont : qcontains (processCandidate st i cA).ownerPlug
      cB.plugin.pluginName = true := by
    rw [hnmB]
    simp [qcontains, hlook1]
  have h2 : (processCandidate (processCandidate st i cA) j cB).ownerPlug =
      (processCandidate st i cA).ownerPlug := by
    exact processCandidate_ownerPlug_dup _ j cB hloadB hcont
  refine ⟨?_, ?_, ?_, ?_, ?_, ?_, ?_⟩
  · rw [h2]; exact hlook1
  · rw [h2, h1, keyCount_append]
    simp [keyCount]
  · have hmem := processCandidate_diag_dup (processCandidate st i cA) j cB
      hloadB hefB hicB hcont
    rwa [hnmB] at hmem
  · exact processCandidate_ioMeshPlugins _ j cB hloadB
  · exact processCandidate_ioRasterPlugins _ j cB hloadB
  · exact processCandidate_decoratePlugins _ j cB hloadB
  · exact processCandidate_renderPlugins _ j cB hloadB

/-- C5 witness: loading the two sample modules that share the name PN
leaves one owner entry bound to the first, emits the warning, and keeps
the second module's decorate and render memberships. -/
theorem C5_duplicate_plugin_name_first_wins_witness :
    qlookup (processCandidate (processCandidate PluginManager.empty 0
      C5candA) 1 C5candB).ownerPlug "PN" = some (0, C5candA.plugin) ∧
    keyCount (processCandidate (processCandidate PluginManager.empty 0
      C5candA) 1 C5candB).ownerPlug "PN" = 1 ∧
    alreadyLoadedDiag "PN" ∈ (processCandidate (processCandidate
      PluginManager.empty 0 C5candA) 1 C5candB).diagnostics ∧
    (processCandidate (processCandidate PluginManager.empty 0 C5candA) 1
      C5candB).decoratePlugins = [(1, C5candB.plugin)] ∧
    (processCandidate (processCandidate PluginManager.empty 0 C5candA) 1
      C5candB).renderPlugins = [(0, C5candA.plugin), (1, C5candB.plugin)] := by
  have h := C5_duplicate_plugin_name_first_wins PluginManager.empty 0 1
    C5candA C5candB "PN" rfl rfl rfl rfl rfl rfl rfl rfl rfl
  refine ⟨h.1, h.2.1, h.2.2.1, ?_, ?_⟩
  · rw [h.2.2.2.2.2.1]
    rfl
  · rw [h.2.2.2.2.2.2]
    rw [processCandidate_renderPlugins _ 0 C5candA rfl]
    rfl

/-! ## Claim C3 -/

theorem foldl_qinsert_lookup_of_none (i : Nat) (f : String) (n : String)
    (acts : List FilterAction) (m : List (String × (Nat × FilterAction)))
    (h : ∀ a ∈ acts, a.text ≠ n) :
    qlookup (acts.foldl (fun m a => qinsert m a.text (i, setData a f)) m)
      n = qlookup m n := by
  induction acts generalizing m with
  | nil => rfl
  | cons a t ih =>
    simp only [List.foldl_cons]
    rw [ih _ (fun b hb => h b (List.mem_cons_of_mem a hb))]
    exact qlookup_qinsert_ne _ _ _ _
      (fun hn => (h a (List.mem_cons_self a t)) hn.symm)

theorem foldl_qinsert_lookup_last (i : Nat) (f : String) (n : String)
    (a : FilterAction) (l1 l2 : List FilterAction)
    (m : List (String × (Nat × FilterAction)))
    (ha : a.text = n) (hl2 : ∀ b ∈ l2, b.text ≠ n) :
    qlookup ((l1 ++ a :: l2).foldl
      (fun m a => qinsert m a.text (i, setData a f)) m) n =
      some (i, setData a f) := by
  rw [List.foldl_append, List.foldl_cons,
    foldl_qinsert_lookup_of_none i f n l2 _ hl2, ha,
    qlookup_qinsert_self]

theorem processCandidate_actionFilterMap_valid (st : PluginManager)
    (i : Nat) (c : Candidate) (acts : List FilterAction)
    (hl : c.loads = true) (hf : c.plugin.filter = some acts)
    (hv : acts.all validFilterAction = true) :
    (processCandidate st i c).actionFilterMap =
      acts.foldl (fun m a => qinsert m a.text (i, setData a c.fileName))
        st.actionFilterMap := by
  simp only [processCandidate, hl, if_true, processLoadedPlugin]
  rw [stepFilter_of_valid _ _ _ _ _ hf hv]
  simp [stepIoMesh, stepIoRaster, stepDecorate, stepRender]

/-- C3: when two accepted filter modules each expose an action with the
same display name, after processing the earlier module the registry maps
the name to the earlier action, and after processing the later module the
later insertion has overwritten it, so a lookup returns the later module's
action (tagged with the later file name). -/
theorem C3_action_name_last_registrant_wins
    (st : PluginManager) (i j : Nat) (cA cB : Candidate) (n : String)
    (actsA actsB : List FilterAction) (aA aB : FilterAction)
    (l1 l2 g1 g2 : List FilterAction)
    (hloadA : cA.loads = true) (hloadB : cB.loads = true)
    (hfA : cA.plugin.filter = some actsA)
    (hfB : cB.plugin.filter = some actsB)
    (hvA : actsA.all validFilterAction = true)
    (hvB : actsB.all validFilterAction = true)
    (hsplitA : actsA = l1 ++ aA :: l2) (haA : aA.text = n)
    (hl2 : ∀ b ∈ l2, b.text ≠ n)
    (hsplitB : actsB = g1 ++ aB :: g2) (haB : aB.text = n)
    (hg2 : ∀ b ∈ g2, b.text ≠ n) :
    filterAction (processCandidate st i cA) n =
      some (i, setData aA cA.fileName) ∧
    filterAction (processCandidate (processCandidate st i cA) j cB) n =
      some (j, setData aB cB.fileName) := by
  constructor
  · rw [filterAction,
      processCandidate_actionFilterMap_valid st i cA actsA hloadA hfA hvA,
      hsplitA]
    exact foldl_qinsert_lookup_last i cA.fileName n aA l1 l2 _ haA hl2
  · rw [filterAction,
      processCandidate_actionFilterMap_valid _ j cB actsB hloadB hfB hvB,
      hsplitB]
    exact foldl_qinsert_lookup_last j cB.fileName n aB g1 g2 _ haB hg2

/-- C3 witness: with the two sample modules, looking up Dup after the
first yields the first action and after both yields the second module's
action tagged with the second file name. -/
theorem C3_action_name_last_registrant_wins_witness :
    filterAction (processCandidate PluginManager.empty 0 C3candA) "Dup" =
      some (0, setData ⟨"Dup", 1, 2, 2, 2, 1, none⟩ "a.so") ∧
    filterAction (processCandidate (processCandidate PluginManager.empty 0
      C3candA) 1 C3candB) "Dup" =
      some (1, setData ⟨"Dup", 3, 5, 5, 5, 2, none⟩ "b.so") := by
  have h := C3_action_name_last_registrant_wins PluginManager.empty 0 1
    C3candA C3candB "Dup" [⟨"Dup", 1, 2, 2, 2, 1, none⟩]
    [⟨"Dup", 3, 5, 5, 5, 2, none⟩] ⟨"Dup", 1, 2, 2, 2, 1, none⟩
    ⟨"Dup", 3, 5, 5, 5, 2, none⟩ [] [] [] [] rfl rfl rfl rfl (by decide)
    (by decide) rfl rfl (by simp) rfl rfl (by simp)
  exact h

/-! ## Claim C6 -/

/-- C6: on the manager built from the two sample decorate modules, looking
up a decoration that exists returns the first owning module in
classification order, but looking up an absent decoration reaches the
assert(0) branch: the original code terminates the process on a miss
instead of returning the not-found result the specification requires. -/
theorem C6_decoration_lookup_aborts_on_miss :
    getDecoratePlugin (loadPlugins [C6candA, C6candB]) "Shadow" =
      DecorateLookup.found (0, C6candA.plugin) ∧
    getDecoratePlugin (loadPlugins [C6candA, C6candB]) "Grid" =
      DecorateLookup.found (1, C6candB.plugin) ∧
    getDecoratePlugin (loadPlugins [C6candA, C6candB]) "Absent" =
      DecorateLookup.assertionFailure := by
  exact ⟨rfl, rfl, rfl⟩

/-! ## Claim C9 -/

/-- C9: osIndependentPluginName removes as many leading characters from
the base name as the platform prefix is long, unconditionally: on the
lib-prefix platforms it always drops three characters, even when the base
name does not start with lib, so short or differently named files come
back truncated or empty rather than unchanged. -/
theorem C9_prefix_removed_unconditionally :
    (∀ plname : String,
      osIndependentPluginName false plname =
        String.mk ((baseName plname).data.drop 3)) ∧
    (∀ plname : String,
      (osIndependentPluginName false plname).length =
        (baseName plname).length - 3) ∧
    osIndependentPluginName false "/plugins/libfilter_mesh.so" =
      "filter_mesh" ∧
    osIndependentPluginName false "/plugins/ab.so" = "" ∧
    osIndependentPluginName false "/plugins/xyzw.so" = "w" ∧
    osIndependentPluginName true "C:/plugins/filter_mesh.dll" =
      "filter_mesh" := by
  refine ⟨fun plname => rfl, fun plname => ?_, by decide, by decide,
    by decide, by decide⟩
  show ((baseName plname).data.drop 3).length = (baseName plname).length - 3
  rw [List.length_drop]
  rfl

/-! ## Claim C8 -/

theorem fillKnownIOFormats_pluginsLoaded (st : PluginManager) :
    (fillKnownIOFormats st).pluginsLoaded = st.pluginsLoaded := rfl

theorem fillKnownIOFormats_diagnostics (st : PluginManager) :
    (fillKnownIOFormats st).diagnostics = st.diagnostics := rfl

theorem loadPluginsLoop_pluginsLoaded (cands : List Candidate) :
    ∀ (st : PluginManager) (i : Nat),
    (loadPluginsLoop st i cands).pluginsLoaded =
      st.pluginsLoaded ++
        (cands.filter (fun c => c.loads)).map (fun c => c.fileName) := by
  induction cands with
  | nil => intro st i; simp [loadPluginsLoop]
  | cons c rest ih =>
    intro st i
    rw [loadPluginsLoop, ih, processCandidate_pluginsLoaded]
    by_cases hl : c.loads <;> simp [hl]

theorem loadPluginsLoop_diag_mem (cands : List Candidate) :
    ∀ (st : PluginManager) (i : Nat) (x : String), x ∈ st.diagnostics →
    x ∈ (loadPluginsLoop st i cands).diagnostics := by
  induction cands with
  | nil => intro st i x hx; exact hx
  | cons c rest ih =>
    intro st i x hx
    rw [loadPluginsLoop]
    apply ih
    obtain ⟨l, hl⟩ := processCandidate_diagnostics_mono st i c
    rw [hl]
    exact List.mem_append_left _ hx

theorem loadPluginsLoop_fail_mem (cands : List Candidate) :
    ∀ (st : PluginManager) (i : Nat), ∀ c ∈ cands, c.loads = false →
    c.errorString ∈ (loadPluginsLoop st i cands).diagnostics := by
  induction cands with
  | nil => intro st i c hc; cases hc
  | cons d rest ih =>
    intro st i c hc hfail
    rcases List.mem_cons.mp hc with h | h
    · subst h
      rw [loadPluginsLoop]
      apply loadPluginsLoop_diag_mem
      rw [processCandidate_diagnostics_fail st i c hfail]
      exact List.mem_append_right _ (List.mem_singleton.mpr rfl)
    · rw [loadPluginsLoop]
      exact ih _ _ c h hfail

/-- C8: the load pass processes every candidate: the loaded-file list is
exactly the file names of the candidates that load, one entry each and in
order (so its length does not depend on how many candidates fail), and
every failing candidate leaves its loader error text in the diagnostics
without terminating the pass. -/
theorem C8_every_candidate_processed (cands : List Candidate) :
    (loadPlugins cands).pluginsLoaded =
      (cands.filter (fun c => c.loads)).map (fun c => c.fileName) ∧
    (loadPlugins cands).pluginsLoaded.length =
      (cands.filter (fun c => c.loads)).length ∧
    (∀ c ∈ cands, c.loads = false →
      c.errorString ∈ (loadPlugins cands).diagnostics) := by
  refine ⟨?_, ?_, ?_⟩
  · rw [loadPlugins, fillKnownIOFormats_pluginsLoaded,
      loadPluginsLoop_pluginsLoaded]
    simp [PluginManager.empty]
  · rw [loadPlugins, fillKnownIOFormats_pluginsLoaded,
      loadPluginsLoop_pluginsLoaded]
    simp [PluginManager.empty]
  · intro c hc hfail
    rw [loadPlugins, fillKnownIOFormats_diagnostics]
    exact loadPluginsLoop_fail_mem cands _ 0 c hc hfail

/-- C8 witness: with two loading and two failing sample candidates the
loaded list has exactly the two loading file names and both loader error
texts are in the diagnostics. -/
theorem C8_every_candidate_processed_witness :
    (loadPlugins [C8candA, C8candB, C8candC, C8candD]).pluginsLoaded =
      ["a.so", "c.so"] ∧
    "not a module B" ∈
      (loadPlugins [C8candA, C8candB, C8candC, C8candD]).diagnostics ∧
    "not a module D" ∈
      (loadPlugins [C8candA, C8candB, C8candC, C8candD]).diagnostics := by
  have h := C8_every_candidate_processed [C8candA, C8candB, C8candC, C8candD]
  refine ⟨?_, ?_, ?_⟩
  · rw [h.1]; rfl
  · exact h.2.2 C8candB (by decide) rfl
  · exact h.2.2 C8candD (by decide) rfl

/-! ## Claim C7 -/

theorem processCandidate_ownerPlug_edit (st : PluginManager) (i : Nat)
    (c : Candidate) (hl : c.loads = true)
    (hef : c.plugin.editFactory.isSome = true) :
    (processCandidate st i c).ownerPlug = st.ownerPlug := by
  simp [processCandidate, hl, processLoadedPlugin, stepIoMesh, stepIoRaster,
    stepDecorate, stepRender, hef]

theorem processCandidate_ownerPlug_nocast (st : PluginManager) (i : Nat)
    (c : Candidate) (hl : c.loads = true)
    (hic : iCommonCast c.plugin = false) :
    (processCandidate st i c).ownerPlug = st.ownerPlug := by
  by_cases hef : c.plugin.editFactory.isSome <;>
    simp [processCandidate, hl, processLoadedPlugin, stepIoMesh, stepIoRaster,
      stepDecorate, stepRender, hef, hic]

theorem releaseIds_eq (st : PluginManager) :
    releaseIds st = ownerIds st ++ editIds st := by
  simp [releaseIds, teardownReleases, ownerIds, editIds]

theorem processCandidate_releaseIds_cases (st : PluginManager) (i : Nat)
    (c : Candidate) :
    releaseIds (processCandidate st i c) = ownerIds st ++ editIds st ∨
    releaseIds (processCandidate st i c) =
      ownerIds st ++ [i] ++ editIds st ∨
    releaseIds (processCandidate st i c) =
      ownerIds st ++ editIds st ++ [i] := by
  by_cases hl : c.loads
  · have hedit := processCandidate_editPlugins st i c hl
    by_cases hef : c.plugin.editFactory.isSome
    · right; right
      have howner := processCandidate_ownerPlug_edit st i c hl hef
      simp [releaseIds, teardownReleases, ownerIds, editIds, howner, hedit,
        hef]
    · by_cases hic : iCommonCast c.plugin
      · by_cases hq : qcontains st.ownerPlug c.plugin.pluginName
        · left
          have howner := processCandidate_ownerPlug_dup st i c hl hq
          simp [releaseIds, teardownReleases, ownerIds, editIds, howner,
            hedit, hef]
        · right; left
          have hefn : c.plugin.editFactory = none := by
            rcases h2 : c.plugin.editFactory with _ | v
            · rfl
            · rw [h2] at hef; simp at hef
          have hqn : qlookup st.ownerPlug c.plugin.pluginName = none := by
            rcases hqq : qlookup st.ownerPlug c.plugin.pluginName with _ | v
            · rfl
            · exfalso; apply hq; simp [qcontains, hqq]
          have howner := processCandidate_ownerPlug_new st i c hl hefn hic hqn
          simp [releaseIds, teardownReleases, ownerIds, editIds, howner,
            hedit, hef]
      · left
        have howner := processCandidate_ownerPlug_nocast st i c hl
          (Bool.eq_false_iff.mpr hic)
        simp [releaseIds, teardownReleases, ownerIds, editIds, howner, hedit,
          hef]
  · left
    rw [← releaseIds_eq]
    simp [processCandidate, hl, releaseIds, teardownReleases]

theorem loadPluginsLoop_release_nodup (cands : List Candidate) :
    ∀ (st : PluginManager) (i : Nat),
    (∀ x ∈ releaseIds st, x < i) → (releaseIds st).Nodup →
    (∀ x ∈ releaseIds (loadPluginsLoop st i cands),
      x < i + cands.length) ∧
    (releaseIds (loadPluginsLoop st i cands)).Nodup := by
  induction cands with
  | nil =>
    intro st i hbound hnd
    refine ⟨fun x hx => ?_, hnd⟩
    simpa using hbound x hx
  | cons c rest ih =>
    intro st i hbound hnd
    rw [loadPluginsLoop]
    have hsplit := releaseIds_eq st
    have hfresh : i ∉ ownerIds st ++ editIds st := by
      intro hmem
      exact absurd (hbound i (hsplit ▸ hmem)) (lt_irrefl i)
    have hb1 : ∀ x ∈ releaseIds (processCandidate st i c), x < i + 1 := by
      rcases processCandidate_releaseIds_cases st i c with h | h | h <;>
        rw [h] <;> intro x hx
      · exact Nat.lt_succ_of_lt (hbound x (hsplit ▸ hx))
      · rcases List.mem_append.mp hx with hx2 | hx2
        · rcases List.mem_append.mp hx2 with hx3 | hx3
          · exact Nat.lt_succ_of_lt (hbound x (hsplit ▸
              (List.mem_append_left _ hx3)))
          · rw [List.mem_singleton.mp hx3]; exact Nat.lt_succ_self i
        · exact Nat.lt_succ_of_lt (hbound x (hsplit ▸
            (List.mem_append_right _ hx2)))
      · rcases List.mem_append.mp hx with hx2 | hx2
        · exact Nat.lt_succ_of_lt (hbound x (hsplit ▸ hx2))
        · rw [List.mem_singleton.mp hx2]; exact Nat.lt_succ_self i
    have hn1 : (releaseIds (processCandidate st i c)).Nodup := by
      rcases processCandidate_releaseIds_cases st i c with h | h | h <;>
        rw [h]
      · exact hsplit ▸ hnd
      · have hre : ownerIds st ++ [i] ++ editIds st =
            ownerIds st ++ i :: editIds st := by simp
        rw [hre, List.Perm.nodup_iff List.perm_middle]
        exact List.nodup_cons.mpr ⟨hfresh, hsplit ▸ hnd⟩
      · rw [List.Perm.nodup_iff (List.perm_append_singleton _ _)]
        exact List.nodup_cons.mpr ⟨hfresh, hsplit ▸ hnd⟩
    have hrec := ih (processCandidate st i c) (i + 1) hb1 hn1
    refine ⟨fun x hx => ?_, hrec.2⟩
    have := hrec.1 x hx
    rw [List.length_cons]
    omega

theorem releaseCount_eq_count (st : PluginManager) (i : Nat) :
    releaseCount st i = (releaseIds st).count i := by
  rw [releaseCount, releaseIds, List.count, List.countP_map,
    List.countP_eq_length_filter]
  rfl

/-- C7 counterexample: the second of two modules that declare the same
unique name loads successfully and satisfies the mesh-io contract (it sits
in the mesh-io registry), yet teardown releases it zero times, not once:
its owner-map insertion was rejected, so it belongs to no owning
container. -/
theorem C7_counterexample_duplicate_name_module_never_released :
    (loadPlugins [C7candA, C7candB]).pluginsLoaded = ["a.so", "b.so"] ∧
    iCommonCast C7candB.plugin = true ∧
    (loadPlugins [C7candA, C7candB]).ioMeshPlugins =
      [(0, C7candA.plugin), (1, C7candB.plugin)] ∧
    releaseCount (loadPlugins [C7candA, C7candB]) 1 = 0 := by
  exact ⟨rfl, rfl, rfl, rfl⟩

/-- C7 amended: teardown releases each loaded module at most once - the
deletion list of the destructor (owner-map values then edit factories)
never repeats a module - though a module whose owner-map insertion was
rejected because of a duplicate name (or that matches no contract) is in
no owning container and is released zero times. -/
theorem C7_amended_teardown_releases_each_module_at_most_once
    (cands : List Candidate) :
    (releaseIds (loadPlugins cands)).Nodup ∧
    ∀ i : Nat, releaseCount (loadPlugins cands) i ≤ 1 := by
  have hempty_bound : ∀ x ∈ releaseIds PluginManager.empty, x < 0 := by
    simp [releaseIds, teardownReleases, PluginManager.empty]
  have hempty_nd : (releaseIds PluginManager.empty).Nodup := by
    simp [releaseIds, teardownReleases, PluginManager.empty]
  have h := loadPluginsLoop_release_nodup cands PluginManager.empty 0
    hempty_bound hempty_nd
  have heq : releaseIds (loadPlugins cands) =
      releaseIds (loadPluginsLoop PluginManager.empty 0 cands) := rfl
  have hnd : (releaseIds (loadPlugins cands)).Nodup := by
    rw [heq]; exact h.2
  refine ⟨hnd, fun i => ?_⟩
  rw [releaseCount_eq_count]
  exact List.nodup_iff_count_le_one.mp hnd i

/-! ## Claim C2: extension-walk lemmas -/

theorem addMeshExtension_fold_lookup_some (p : PluginRef)
    (exts : List String) :
    ∀ (m : List (String × PluginRef)) (s e k : String) (r : PluginRef),
    qlookup m k = some r →
    qlookup (exts.foldl (addMeshExtension p) (m, s, e)).1 k = some r := by
  induction exts with
  | nil => intro m s e k r h; exact h
  | cons x t ih =>
    intro m s e k r h
    rw [List.foldl_cons]
    by_cases hc : qcontains m (strToLower x)
    · simp only [addMeshExtension, hc, if_true]
      exact ih m _ _ k r h
    · simp only [addMeshExtension, hc, Bool.false_eq_true, if_false]
      apply ih
      by_cases hk : strToLower x = k
      · exfalso
        rw [hk] at hc
        exact hc (by simp [qcontains, h])
      · rw [qlookup_qinsert_ne _ _ _ _ (fun h2 => hk h2.symm)]
        exact h

theorem addMeshExtension_fold_lookup_not_declared (p : PluginRef)
    (exts : List String) :
    ∀ (m : List (String × PluginRef)) (s e k : String),
    (∀ x ∈ exts, strToLower x ≠ k) →
    qlookup (exts.foldl (addMeshExtension p) (m, s, e)).1 k =
      qlookup m k := by
  induction exts with
  | nil => intro m s e k _; rfl
  | cons x t ih =>
    intro m s e k h
    rw [List.foldl_cons]
    by_cases hc : qcontains m (strToLower x)
    · simp only [addMeshExtension, hc, if_true]
      exact ih m _ _ k (fun y hy => h y (List.mem_cons_of_mem x hy))
    · simp only [addMeshExtension, hc, Bool.false_eq_true, if_false]
      rw [ih _ _ _ k (fun y hy => h y (List.mem_cons_of_mem x hy))]
      exact qlookup_qinsert_ne _ _ _ _
        (fun h2 => (h x (List.mem_cons_self x t)) h2.symm)

theorem addMeshExtension_fold_lookup_claim (p : PluginRef)
    (exts : List String) :
    ∀ (m : List (String × PluginRef)) (s e k : String),
    qlookup m k = none → k ∈ exts.map strToLower →
    qlookup (exts.foldl (addMeshExtension p) (m, s, e)).1 k = some p := by
  induction exts with
  | nil => intro m s e k _ hk; simp at hk
  | cons x t ih =>
    intro m s e k h hk
    rw [List.foldl_cons]
    by_cases hxk : strToLower x = k
    · have hc : qcontains m (strToLower x) = false := by
        rw [hxk]; simp [qcontains, h]
      simp only [addMeshExtension, hc, Bool.false_eq_true, if_false]
      apply addMeshExtension_fold_lookup_some
      rw [hxk, qlookup_qinsert_self]
    · have hk2 : k ∈ t.map strToLower := by
        rw [List.map_cons] at hk
        rcases List.mem_cons.mp hk with h2 | h2
        · exact absurd h2.symm hxk
        · exact h2
      by_cases hc : qcontains m (strToLower x)
      · simp only [addMeshExtension, hc, if_true]
        exact ih m _ _ k h hk2
      · simp only [addMeshExtension, hc, Bool.false_eq_true, if_false]
        apply ih
        · rw [qlookup_qinsert_ne _ _ _ _ (fun h2 => hxk h2.symm)]
          exact h
        · exact hk2

theorem addMeshExtension_fold_entry (p : PluginRef) (exts : List String) :
    ∀ (m : List (String × PluginRef)) (s e : String),
    (exts.foldl (addMeshExtension p) (m, s, e)).2.2 =
      e ++ extFragments exts := by
  induction exts with
  | nil => intro m s e; simp [extFragments]
  | cons x t ih =>
    intro m s e
    rw [List.foldl_cons]
    by_cases hc : qcontains m (strToLower x) <;>
      simp [addMeshExtension, hc, ih, extFragments, String.append_assoc]

theorem addMeshExtension_fold_aggregate_grows (p : PluginRef)
    (exts : List String) :
    ∀ (m : List (String × PluginRef)) (s e : String),
    ∃ t2, (exts.foldl (addMeshExtension p) (m, s, e)).2.1 = s ++ t2 := by
  induction exts with
  | nil => intro m s e; exact ⟨"", by simp⟩
  | cons x t ih =>
    intro m s e
    rw [List.foldl_cons]
    by_cases hc : qcontains m (strToLower x)
    · simpa only [addMeshExtension, hc, if_true] using ih m s _
    · obtain ⟨t2, ht⟩ := ih (qinsert m (strToLower x) p)
        (s ++ " *." ++ strToLower x) (e ++ " *." ++ strToLower x)
      refine ⟨" *." ++ strToLower x ++ t2, ?_⟩
      simp only [addMeshExtension, hc, Bool.false_eq_true, if_false]
      rw [ht]
      simp [String.append_assoc]

theorem addMeshExtension_fold_all_claimed (p : PluginRef)
    (exts : List String) :
    ∀ (m : List (String × PluginRef)) (s e : String),
    (∀ x ∈ exts, qcontains m (strToLower x) = true) →
    (exts.foldl (addMeshExtension p) (m, s, e)).1 = m ∧
    (exts.foldl (addMeshExtension p) (m, s, e)).2.1 = s := by
  induction exts with
  | nil => intro m s e _; exact ⟨rfl, rfl⟩
  | cons x t ih =>
    intro m s e h
    rw [List.foldl_cons]
    have hc := h x (List.mem_cons_self x t)
    simp only [addMeshExtension, hc, if_true]
    exact ih m s _ (fun y hy => h y (List.mem_cons_of_mem x hy))

theorem addMeshExtension_fold_fragment_infix (p : PluginRef)
    (exts : List String) :
    ∀ (m : List (String × PluginRef)) (s e k : String),
    qlookup m k = none → k ∈ exts.map strToLower →
    (" *." ++ k).data <:+:
      ((exts.foldl (addMeshExtension p) (m, s, e)).2.1).data := by
  induction exts with
  | nil => intro m s e k _ hk; simp at hk
  | cons x t ih =>
    intro m s e k h hk
    rw [List.foldl_cons]
    by_cases hxk : strToLower x = k
    · have hc : qcontains m (strToLower x) = false := by
        rw [hxk]; simp [qcontains, h]
      obtain ⟨t2, ht⟩ := addMeshExtension_fold_aggregate_grows p t
        (qinsert m (strToLower x) p) (s ++ " *." ++ strToLower x)
        (e ++ " *." ++ strToLower x)
      simp only [addMeshExtension, hc, Bool.false_eq_true, if_false]
      rw [ht, hxk]
      exact ⟨s.data, t2.data, by simp [String.data_append]⟩
    · have hk2 : k ∈ t.map strToLower := by
        rw [List.map_cons] at hk
        rcases List.mem_cons.mp hk with h2 | h2
        · exact absurd h2.symm hxk
        · exact h2
      by_cases hc : qcontains m (strToLower x)
      · simp only [addMeshExtension, hc, if_true]
        exact ih m _ _ k h hk2
      · simp only [addMeshExtension, hc, Bool.false_eq_true, if_false]
        apply ih
        · rw [qlookup_qinsert_ne _ _ _ _ (fun h2 => hxk h2.symm)]
          exact h
        · exact hk2

/-! ## Claim C2: format-walk lemmas -/

theorem addMeshFormat_fold_lookup_some (p : PluginRef)
    (formats : List FileFormat) :
    ∀ (m : List (String × PluginRef)) (ff : List String) (s k : String)
    (r : PluginRef), qlookup m k = some r →
    qlookup (formats.foldl (addMeshFormat p) (m, ff, s)).1 k = some r := by
  induction formats with
  | nil => intro m ff s k r h; exact h
  | cons fmt t ih =>
    intro m ff s k r h
    rw [List.foldl_cons]
    simp only [addMeshFormat]
    exact ih _ _ _ k r (addMeshExtension_fold_lookup_some p _ m s _ k r h)

theorem addMeshFormat_fold_lookup_not_declared (p : PluginRef)
    (formats : List FileFormat) :
    ∀ (m : List (String × PluginRef)) (ff : List String) (s k : String),
    (∀ fmt ∈ formats, ∀ x ∈ fmt.extensions, strToLower x ≠ k) →
    qlookup (formats.foldl (addMeshFormat p) (m, ff, s)).1 k =
      qlookup m k := by
  induction formats with
  | nil => intro m ff s k _; rfl
  | cons fmt t ih =>
    intro m ff s k h
    rw [List.foldl_cons]
    simp only [addMeshFormat]
    rw [ih _ _ _ k (fun f2 hf2 => h f2 (List.mem_cons_of_mem fmt hf2))]
    exact addMeshExtension_fold_lookup_not_declared p _ m s _ k
      (h fmt (List.mem_cons_self fmt t))

theorem addMeshFormat_fold_lookup_claim (p : PluginRef)
    (formats : List FileFormat) :
    ∀ (m : List (String × PluginRef)) (ff : List String) (s k : String),
    qlookup m k = none →
    (∃ fmt ∈ formats, k ∈ fmt.extensions.map strToLower) →
    qlookup (formats.foldl (addMeshFormat p) (m, ff, s)).1 k = some p := by
  induction formats with
  | nil => intro m ff s k _ hex; simp at hex
  | cons fmt t ih =>
    intro m ff s k h hex
    rw [List.foldl_cons]
    simp only [addMeshFormat]
    by_cases hd : k ∈ fmt.extensions.map strToLower
    · exact addMeshFormat_fold_lookup_some p t _ _ _ k p
        (addMeshExtension_fold_lookup_claim p _ m s _ k h hd)
    · have hnd : ∀ x ∈ fmt.extensions, strToLower x ≠ k := by
        intro x hx he
        exact hd (he ▸ List.mem_map_of_mem strToLower hx)
      have hex2 : ∃ fmt2 ∈ t, k ∈ fmt2.extensions.map strToLower := by
        rcases hex with ⟨f2, hf2, hk2⟩
        rcases List.mem_cons.mp hf2 with he | he
        · subst he; exact absurd hk2 hd
        · exact ⟨f2, he, hk2⟩
      apply ih _ _ _ k ?_ hex2
      rw [addMeshExtension_fold_lookup_not_declared p _ m s _ k hnd]
      exact h

theorem addMeshFormat_fold_filters (p : PluginRef)
    (formats : List FileFormat) :
    ∀ (m : List (String × PluginRef)) (ff : List String) (s : String),
    (formats.foldl (addMeshFormat p) (m, ff, s)).2.1 =
      ff ++ formats.map meshFormatEntry := by
  induction formats with
  | nil => intro m ff s; simp
  | cons fmt t ih =>
    intro m ff s
    rw [List.foldl_cons]
    simp only [addMeshFormat]
    rw [ih, addMeshExtension_fold_entry]
    simp [meshFormatEntry, String.append_assoc]

theorem addMeshFormat_fold_aggregate_grows (p : PluginRef)
    (formats : List FileFormat) :
    ∀ (m : List (String × PluginRef)) (ff : List String) (s : String),
    ∃ t2, (formats.foldl (addMeshFormat p) (m, ff, s)).2.2 = s ++ t2 := by
  induction formats with
  | nil => intro m ff s; exact ⟨"", by simp⟩
  | cons fmt t ih =>
    intro m ff s
    rw [List.foldl_cons]
    simp only [addMeshFormat]
    obtain ⟨t2a, ht2a⟩ := addMeshExtension_fold_aggregate_grows p
      fmt.extensions m s (fmt.description ++ " (")
    obtain ⟨t2b, ht2b⟩ := ih (fmt.extensions.foldl (addMeshExtension p)
      (m, s, fmt.description ++ " (")).1
      (ff ++ [(fmt.extensions.foldl (addMeshExtension p)
        (m, s, fmt.description ++ " (")).2.2 ++ ")"])
      (fmt.extensions.foldl (addMeshExtension p)
        (m, s, fmt.description ++ " (")).2.1
    refine ⟨t2a ++ t2b, ?_⟩
    rw [ht2b, ht2a, String.append_assoc]

theorem addMeshFormat_fold_all_claimed (p : PluginRef)
    (formats : List FileFormat) :
    ∀ (m : List (String × PluginRef)) (ff : List String) (s : String),
    (∀ fmt ∈ formats, ∀ x ∈ fmt.extensions,
      qcontains m (strToLower x) = true) →
    (formats.foldl (addMeshFormat p) (m, ff, s)).1 = m ∧
    (formats.foldl (addMeshFormat p) (m, ff, s)).2.2 = s := by
  induction formats with
  | nil => intro m ff s _; exact ⟨rfl, rfl⟩
  | cons fmt t ih =>
    intro m ff s h
    rw [List.foldl_cons]
    simp only [addMeshFormat]
    have h6 := addMeshExtension_fold_all_claimed p fmt.extensions m s
      (fmt.description ++ " (") (h fmt (List.mem_cons_self fmt t))
    rw [h6.1, h6.2]
    exact ih m _ s (fun f2 hf2 => h f2 (List.mem_cons_of_mem fmt hf2))

theorem addMeshFormat_fold_fragment_infix (p : PluginRef)
    (formats : List FileFormat) :
    ∀ (m : List (String × PluginRef)) (ff : List String) (s k : String),
    qlookup m k = none →
    (∃ fmt ∈ formats, k ∈ fmt.extensions.map strToLower) →
    (" *." ++ k).data <:+:
      ((formats.foldl (addMeshFormat p) (m, ff, s)).2.2).data := by
  induction formats with
  | nil => intro m ff s k _ hex; simp at hex
  | cons fmt t ih =>
    intro m ff s k h hex
    rw [List.foldl_cons]
    simp only [addMeshFormat]
    by_cases hd : k ∈ fmt.extensions.map strToLower
    · have hinf := addMeshExtension_fold_fragment_infix p fmt.extensions
        m s (fmt.description ++ " (") k h hd
      obtain ⟨t2, ht2⟩ := addMeshFormat_fold_aggregate_grows p t
        (fmt.extensions.foldl (addMeshExtension p)
          (m, s, fmt.description ++ " (")).1
        (ff ++ [(fmt.extensions.foldl (addMeshExtension p)
          (m, s, fmt.description ++ " (")).2.2 ++ ")"])
        (fmt.extensions.foldl (addMeshExtension p)
          (m, s, fmt.description ++ " (")).2.1
      rw [ht2, String.data_append]
      exact hinf.trans (List.prefix_append _ _).isInfix
    · have hnd : ∀ x ∈ fmt.extensions, strToLower x ≠ k := by
        intro x hx he
        exact hd (he ▸ List.mem_map_of_mem strToLower hx)
      have hex2 : ∃ fmt2 ∈ t, k ∈ fmt2.extensions.map strToLower := by
        rcases hex with ⟨f2, hf2, hk2⟩
        rcases List.mem_cons.mp hf2 with he | he
        · subst he; exact absurd hk2 hd
        · exact ⟨f2, he, hk2⟩
      apply ih _ _ _ k ?_ hex2
      rw [addMeshExtension_fold_lookup_not_declared p _ m s _ k hnd]
      exact h

/-! ## Claim C2: module-fold lemmas and the claim -/

theorem addModuleImportFormats_fold_lookup_some (mods : List PluginRef) :
    ∀ (m : List (String × PluginRef)) (ff : List String) (s k : String)
    (r : PluginRef), qlookup m k = some r →
    qlookup (mods.foldl addModuleImportFormats (m, ff, s)).1 k = some r := by
  induction mods with
  | nil => intro m ff s k r h; exact h
  | cons q t ih =>
    intro m ff s k r h
    rw [List.foldl_cons]
    simp only [addModuleImportFormats, addPluginMeshFormats]
    exact ih _ _ _ k r (addMeshFormat_fold_lookup_some q _ m ff "" k r h)

theorem declaresImportExt_eq_false_iff (q : PluginRef) (k : String) :
    declaresImportExt q k = false ↔
    ∀ fmt ∈ q.2.importFormats, ∀ x ∈ fmt.extensions, strToLower x ≠ k := by
  rw [declaresImportExt, List.any_eq_false]
  constructor
  · intro h fmt hf x hx he
    have h2 := h fmt hf
    simp at h2
    exact h2 x hx he
  · intro h fmt hf h2
    simp at h2
    rcases h2 with ⟨x, hx, he⟩
    exact h fmt hf x hx he

theorem declaresImportExt_eq_true_exists (q : PluginRef) (k : String)
    (h : declaresImportExt q k = true) :
    ∃ fmt ∈ q.2.importFormats, k ∈ fmt.extensions.map strToLower := by
  rw [declaresImportExt, List.any_eq_true] at h
  rcases h with ⟨fmt, hf, hc⟩
  simp at hc
  rcases hc with ⟨x, hx, he⟩
  refine ⟨fmt, hf, ?_⟩
  rw [← he]
  exact List.mem_map_of_mem strToLower hx

theorem addModuleImportFormats_fold_first_wins (mods : List PluginRef) :
    ∀ (m : List (String × PluginRef)) (ff : List String) (s k : String)
    (p : PluginRef), qlookup m k = none →
    mods.find? (fun q => declaresImportExt q k) = some p →
    qlookup (mods.foldl addModuleImportFormats (m, ff, s)).1 k = some p := by
  induction mods with
  | nil => intro m ff s k p _ hfind; simp at hfind
  | cons q t ih =>
    intro m ff s k p h hfind
    rw [List.foldl_cons]
    simp only [addModuleImportFormats, addPluginMeshFormats]
    by_cases hq : declaresImportExt q k
    · have hfind2 : q = p := by simpa [List.find?_cons, hq] using hfind
      subst hfind2
      exact addModuleImportFormats_fold_lookup_some t _ _ _ k q
        (addMeshFormat_fold_lookup_claim q _ m ff "" k h
          (declaresImportExt_eq_true_exists q k hq))
    · have hq2 : declaresImportExt q k = false := Bool.eq_false_iff.mpr hq
      have hfind2 : t.find? (fun q2 => declaresImportExt q2 k) = some p := by
        simpa [List.find?_cons, hq2] using hfind
      apply ih _ _ _ k p ?_ hfind2
      rw [addMeshFormat_fold_lookup_not_declared q _ m ff "" k
        ((declaresImportExt_eq_false_iff q k).mp hq2)]
      exact h

/-- C2: the merged import-extension table is first-registrant-wins - a
claimed (lower-cased) extension is never overwritten, an unclaimed
declared extension is claimed for the declaring module, and the module the
merged table ends up mapping an extension to is the first module in
classification order that declares it - while the per-format filter
strings are appended unconditionally (one entry per format, listing every
extension, duplicates included) and the aggregate all-known-formats string
gains a fragment only on a first claim (nothing when every extension was
already claimed). -/
theorem C2_mesh_format_first_wins :
    (∀ (m : List (String × PluginRef)) (ff : List String) (p : PluginRef)
      (formats : List FileFormat) (k : String) (r : PluginRef),
      qlookup m k = some r →
      qlookup (addPluginMeshFormats m ff p formats).1 k = some r) ∧
    (∀ (m : List (String × PluginRef)) (ff : List String) (p : PluginRef)
      (formats : List FileFormat) (k : String),
      qlookup m k = none →
      (∃ fmt ∈ formats, k ∈ fmt.extensions.map strToLower) →
      qlookup (addPluginMeshFormats m ff p formats).1 k = some p) ∧
    (∀ (m : List (String × PluginRef)) (ff : List String) (p : PluginRef)
      (formats : List FileFormat),
      (addPluginMeshFormats m ff p formats).2.1 =
        ff ++ formats.map meshFormatEntry) ∧
    (∀ (m : List (String × PluginRef)) (ff : List String) (p : PluginRef)
      (formats : List FileFormat),
      (∀ fmt ∈ formats, ∀ x ∈ fmt.extensions,
        qcontains m (strToLower x) = true) →
      (addPluginMeshFormats m ff p formats).1 = m ∧
      (addPluginMeshFormats m ff p formats).2.2 = "") ∧
    (∀ (m : List (String × PluginRef)) (ff : List String) (p : PluginRef)
      (formats : List FileFormat) (k : String),
      qlookup m k = none →
      (∃ fmt ∈ formats, k ∈ fmt.extensions.map strToLower) →
      (" *." ++ k).data <:+:
        ((addPluginMeshFormats m ff p formats).2.2).data) ∧
    (∀ (st : PluginManager) (k : String) (p : PluginRef),
      qlookup st.allKnowInputMeshFormats k = none →
      st.ioMeshPlugins.find? (fun q => declaresImportExt q k) = some p →
      qlookup (fillKnownIOFormats st).allKnowInputMeshFormats k =
        some p) := by
  refine ⟨?_, ?_, ?_, ?_, ?_, ?_⟩
  · intro m ff p formats k r h
    exact addMeshFormat_fold_lookup_some p formats m ff "" k r h
  · intro m ff p formats k h hex
    exact addMeshFormat_fold_lookup_claim p formats m ff "" k h hex
  · intro m ff p formats
    exact addMeshFormat_fold_filters p formats m ff ""
  · intro m ff p formats h
    exact addMeshFormat_fold_all_claimed p formats m ff "" h
  · intro m ff p formats k h hex
    exact addMeshFormat_fold_fragment_infix p formats m ff "" k h hex
  · intro st k p h hfind
    exact addModuleImportFormats_fold_first_wins st.ioMeshPlugins
      st.allKnowInputMeshFormats st.inpMeshFilters "All known formats ("
      k p h hfind

/-- C2 witness: with the two sample modules both declaring xyz, the merged
input table maps xyz to the first module; the second module's per-format
filter string still lists both *.xyz and *.abc; re-declaring an already
claimed extension contributes nothing to the aggregate string, while a
first claim puts its fragment into it. -/
theorem C2_mesh_format_first_wins_witness :
    qlookup (fillKnownIOFormats C2state).allKnowInputMeshFormats "xyz" =
      some C2mod1 ∧
    (addPluginMeshFormats [("xyz", C2mod1)] [] C2mod2
      [⟨"Mesh Format Two", ["xyz", "abc"]⟩]).2.1 =
      ["Mesh Format Two ( *.xyz *.abc)"] ∧
    (addPluginMeshFormats [("xyz", C2mod1)] [] C2mod1
      [⟨"Mesh Format One", ["XYZ"]⟩]).2.2 = "" ∧
    " *.xyz".data <:+:
      ((addPluginMeshFormats [] [] C2mod1
        [⟨"Mesh Format One", ["XYZ"]⟩]).2.2).data := by
  have h := C2_mesh_format_first_wins
  refine ⟨?_, ?_, ?_, ?_⟩
  · exact h.2.2.2.2.2 C2state "xyz" C2mod1 rfl (by decide)
  · rw [h.2.2.1 [("xyz", C2mod1)] [] C2mod2
      [⟨"Mesh Format Two", ["xyz", "abc"]⟩]]
    rfl
  · exact (h.2.2.2.1 [("xyz", C2mod1)] [] C2mod1
      [⟨"Mesh Format One", ["XYZ"]⟩] (by decide)).2
  · exact h.2.2.2.2.1 [] [] C2mod1 [⟨"Mesh Format One", ["XYZ"]⟩] "xyz"
      rfl (by decide)
